import Mathlib

/-!
Verification of the gipp IP-address / pattern matcher (`cmd/matcher.go`).

Strings are modelled as `List Char`, Go bytes as `Nat` (always < 256 where
produced), Go `int` as `Int`.  A Go function returning `(T, error)` is
modelled as `Res T`: `.ok` for a normal return with `nil` error, `.err` for
a non-nil error (`ErrInvalidIP` / `ErrInvalidPattern`), and `.panic` for a
Go runtime panic (negative `strings.Repeat` count, out-of-range slice or
array index, failed type assertion).
-/

/-- Outcome of a Go call: normal value, error value, or runtime panic. -/
inductive GoErr where
  | invalidIP
  | invalidPattern
deriving DecidableEq

inductive Res (α : Type) where
  | ok (a : α)
  | err (e : GoErr)
  | panic
deriving DecidableEq

/-- Sequencing of Go statements: errors and panics propagate. -/
def Res.bind {α β : Type} : Res α → (α → Res β) → Res β
  | .ok a, f => f a
  | .err e, _ => .err e
  | .panic, _ => .panic

/-- Characters of a string literal. -/
def chars (s : String) : List Char := s.data

/-- Go `strings.Split(s, sep)` for a one-character separator:
`splitChar sep ""` is `[""]`, and every separator starts a new field. -/
def splitChar (sep : Char) : List Char → List (List Char)
  | [] => [[]]
  | c :: rest =>
    if c = sep then [] :: splitChar sep rest
    else
      match splitChar sep rest with
      | [] => [[c]]
      | b :: bs => (c :: b) :: bs

/-- Go `strings.Count(s, "::")`: non-overlapping occurrences, leftmost first. -/
def countSS : List Char → Nat
  | ':' :: ':' :: rest => countSS rest + 1
  | _ :: rest => countSS rest
  | [] => 0

/-- Go `strings.Contains(s, "::")`. -/
def containsSS : List Char → Bool
  | ':' :: ':' :: _ => true
  | _ :: rest => containsSS rest
  | [] => false

/-- Go `strings.HasPrefix(s, "::")`. -/
def startsWithSS : List Char → Bool
  | ':' :: ':' :: _ => true
  | _ => false

/-- Go `strings.HasSuffix(s, "::")`: the last two characters are colons,
which (both characters of the needle being equal) is the same as the
reversed string starting with two colons. -/
def endsWithSS (l : List Char) : Bool := startsWithSS l.reverse

/-- Splitting at the first `"::"` occurrence, as Go
`idx := strings.Index(s, "::"); head := s[:idx]; tail := s[idx+1:]`
(the tail keeps the second colon).  `none` when `"::"` does not occur. -/
def splitAtSS : List Char → Option (List Char × List Char)
  | ':' :: ':' :: rest => some ([], ':' :: rest)
  | c :: rest =>
    match splitAtSS rest with
    | some (h, t) => some (c :: h, t)
    | none => none
  | [] => none

/-- Go `strings.Repeat(s, n)`: panics when `n` is negative. -/
def goRepeat (s : List Char) (n : Int) : Res (List Char) :=
  if n < 0 then .panic else .ok (List.flatten (List.replicate n.toNat s))

/-- Left-pad a block with `'0'` to 4 characters
(`strings.Repeat("0", 4-len(b)) + b`). -/
def pad4 (b : List Char) : List Char :=
  List.replicate (4 - b.length) '0' ++ b

/-- First branch of `extendIPv6`: when `"::"` is neither a prefix nor a
suffix, insert `8 - strings.Count(s, ":")` blocks `":0000"` at the
compression point. -/
def extendMid (s : List Char) : Res (List Char) :=
  if !startsWithSS s && !endsWithSS s then
    match splitAtSS s with
    | some (head, tail) =>
      (goRepeat (chars ":0000") ((8 : Int) - (s.count ':' : Int))).bind
        fun blk => .ok (head ++ blk ++ tail)
    | none => .ok s
  else .ok s

/-- Second branch of `extendIPv6`: a leading `"::"` is stripped and
`8 - (count+1)` blocks `"0000:"` are prepended. -/
def extendHead (s : List Char) : Res (List Char) :=
  if startsWithSS s then
    (goRepeat (chars "0000:") ((8 : Int) - (((s.drop 2).count ':' : Int) + 1))).bind
      fun blk => .ok (blk ++ s.drop 2)
  else .ok s

/-- Third branch of `extendIPv6`: a trailing `"::"` is stripped and
`8 - (count+1)` blocks `":0000"` are appended. -/
def extendTail (s : List Char) : Res (List Char) :=
  if endsWithSS s then
    (goRepeat (chars ":0000") ((8 : Int) - ((s.dropLast.dropLast.count ':' : Int) + 1))).bind
      fun blk => .ok (s.dropLast.dropLast ++ blk)
  else .ok s

/-- Final step of `extendIPv6`: every colon-separated block is zero-padded
to 4 characters; a block longer than 4 characters is an error. -/
def padBlocks (s : List Char) : Res (List Char) :=
  let blocks := splitChar ':' s
  if blocks.any (fun b => b.length > 4) then .err .invalidIP
  else .ok (List.intercalate [':'] (blocks.map pad4))

/-- Go `extendIPv6`: expand the `"::"` compression and pad all blocks. -/
def extendIPv6 (s : List Char) : Res (List Char) :=
  if countSS s > 1 then .err .invalidIP
  else if containsSS s then
    if s = chars "::" then .ok (chars "0000:0000:0000:0000:0000:0000:0000:0000")
    else
      (extendMid s).bind fun s1 =>
        (extendHead s1).bind fun s2 =>
          (extendTail s2).bind fun s3 => padBlocks s3
  else padBlocks s

/-- Value of one hexadecimal character, per the `switch` in `hexToBytes`. -/
def hexVal (c : Char) : Option Nat :=
  if ('0'.toNat ≤ c.toNat) && (c.toNat ≤ '9'.toNat) then some (c.toNat - '0'.toNat)
  else if ('a'.toNat ≤ c.toNat) && (c.toNat ≤ 'f'.toNat) then some (c.toNat - 'a'.toNat + 10)
  else if ('A'.toNat ≤ c.toNat) && (c.toNat ≤ 'F'.toNat) then some (c.toNat - 'A'.toNat + 10)
  else none

/-- Go `hexToBytes`: a 4-hex-digit block to its two bytes. -/
def hexToBytes (s : List Char) : Res (List Nat) :=
  match s with
  | [c0, c1, c2, c3] =>
    match hexVal c0, hexVal c1, hexVal c2, hexVal c3 with
    | some a, some b, some c, some d => .ok [a * 16 + b, c * 16 + d]
    | _, _, _, _ => .err .invalidIP
  | _ => .err .invalidIP

/-- One block of the `parseIPv6` loop: empty or over-long blocks error,
otherwise the block is decoded by `hexToBytes`. -/
def parseBlock (b : List Char) : Res (List Nat) :=
  if b = [] then .err .invalidIP
  else if b.length > 4 then .err .invalidIP
  else hexToBytes b

def parseBlocks : List (List Char) → Res (List Nat)
  | [] => .ok []
  | b :: rest =>
    (parseBlock b).bind fun bs =>
      (parseBlocks rest).bind fun tl => .ok (bs ++ tl)

/-- Address values: 16 bytes for IPv6, 4 bytes for IPv4. -/
inductive IPAddress where
  | v6 (ip : List Nat)
  | v4 (ip : List Nat)
deriving DecidableEq

/-- Go `parseIPv6`. -/
def parseIPv6 (s : List Char) : Res IPAddress :=
  (extendIPv6 s).bind fun s' =>
    let blocks := splitChar ':' s'
    if blocks.length ≠ 8 then .err .invalidIP
    else (parseBlocks blocks).bind fun bytes => .ok (.v6 bytes)

/-- ASCII decimal digit test (`'0' <= c && c <= '9'`). -/
def isDigitC (c : Char) : Bool :=
  ('0'.toNat ≤ c.toNat) && (c.toNat ≤ '9'.toNat)

/-- Accumulating decimal value of a digit string; `none` at the first
non-digit character. -/
def digitsValGo (acc : Nat) : List Char → Option Nat
  | [] => some acc
  | c :: r => if isDigitC c then digitsValGo (acc * 10 + (c.toNat - '0'.toNat)) r else none

/-- Decimal value of a non-empty all-digit string. -/
def digitsVal : List Char → Option Nat
  | [] => none
  | c :: r => digitsValGo 0 (c :: r)

/-- Go `strconv.Atoi` restricted to the short strings it sees here
(no overflow possible at ≤ 3 characters): an optional single sign
followed by one or more digits; anything else is an error. -/
def goAtoi (s : List Char) : Option Int :=
  match s with
  | [] => none
  | c :: r =>
    if c = '+' then (digitsVal r).map (fun n => (n : Int))
    else if c = '-' then (digitsVal r).map (fun n => -(n : Int))
    else (digitsVal (c :: r)).map (fun n => (n : Int))

/-- One block of the `parseIPv4` loop: non-empty, at most 3 characters,
`strconv.Atoi` succeeds, value in `[0, 255]`. -/
def parseOctet (b : List Char) : Res Nat :=
  if b = [] then .err .invalidIP
  else if b.length > 3 then .err .invalidIP
  else
    match goAtoi b with
    | none => .err .invalidIP
    | some m => if m < 0 ∨ 255 < m then .err .invalidIP else .ok m.toNat

def parseOctets : List (List Char) → Res (List Nat)
  | [] => .ok []
  | b :: rest =>
    (parseOctet b).bind fun v =>
      (parseOctets rest).bind fun tl => .ok (v :: tl)

/-- Go `parseIPv4`. -/
def parseIPv4 (s : List Char) : Res IPAddress :=
  let blocks := splitChar '.' s
  if blocks.length ≠ 4 then .err .invalidIP
  else (parseOctets blocks).bind fun bs => .ok (.v4 bs)

/-- The scan in `ParseIp` / `ParsePattern`: the first `'.'` or `':'`
decides the version (`some true` = dot seen first, `some false` = colon). -/
def dispatch : List Char → Option Bool
  | [] => none
  | '.' :: _ => some true
  | ':' :: _ => some false
  | _ :: r => dispatch r

/-- Go `ParseIp`. -/
def ParseIp (s : List Char) : Res IPAddress :=
  match dispatch s with
  | some true => parseIPv4 s
  | some false => parseIPv6 s
  | none => .err .invalidIP

structure IPv6Pattern where
  IP : List Nat
  MaskEnd : Int
  MaskStart : Int
deriving DecidableEq

structure IPv4Pattern where
  IP : List Nat
  Mask : List Nat
deriving DecidableEq

/-- The loop of `IPv6Pattern.Match`: `for i := MaskStart; i < MaskEnd; i++`
comparing `ipBytes[i]` with `p.IP.IP[i]`; an index outside the 16-byte
arrays (or a negative index) is a Go panic.  `fuel` is the remaining
iteration count `MaskEnd - i`. -/
def matchLoop (cand pat : List Nat) : Nat → Int → Res Bool
  | 0, _ => .ok true
  | fuel + 1, i =>
    if i < 0 then .panic
    else
      match cand.get? i.toNat, pat.get? i.toNat with
      | some a, some b => if a = b then matchLoop cand pat fuel (i + 1) else .ok false
      | _, _ => .panic

/-- Go `IPv6Pattern.Match`. -/
def IPv6Pattern.Match (p : IPv6Pattern) (a : IPAddress) : Res Bool :=
  match a with
  | .v4 _ => .ok false
  | .v6 bytes => matchLoop bytes p.IP (p.MaskEnd - p.MaskStart).toNat p.MaskStart

/-- The loop of `IPv4Pattern.Match`: `for i := 0; i < 32; i++` comparing
`ipBytes[i]` with `p.IP.IP[i] & p.Mask[i]` over 4-byte arrays. -/
def matchLoop4 (cand pat mask : List Nat) : Nat → Nat → Res Bool
  | 0, _ => .ok true
  | fuel + 1, i =>
    match cand.get? i, pat.get? i, mask.get? i with
    | some a, some b, some m => if a = b.land m then matchLoop4 cand pat mask fuel (i + 1) else .ok false
    | _, _, _ => .panic

/-- Go `IPv4Pattern.Match`. -/
def IPv4Pattern.Match (p : IPv4Pattern) (a : IPAddress) : Res Bool :=
  match a with
  | .v6 _ => .ok false
  | .v4 bytes => matchLoop4 bytes p.IP p.Mask 32 0

/-- The `Pattern` interface: one of the two concrete pattern types. -/
inductive Pattern where
  | v6 (p : IPv6Pattern)
  | v4 (p : IPv4Pattern)
deriving DecidableEq

def Pattern.Match : Pattern → IPAddress → Res Bool
  | .v6 p, a => p.Match a
  | .v4 p, a => p.Match a

/-- Go `parseIPv4Pattern`: the body is `return nil, nil`. -/
def parseIPv4Pattern (_ : List Char) : Res (Option Pattern) := .ok none

/-- Go `s[:idx]` for `idx := strings.Index(s, "/")`, the whole string when
no slash occurs. -/
def beforeSlash : List Char → List Char
  | [] => []
  | c :: r => if c = '/' then [] else c :: beforeSlash r

/-- Go `s[idx:]` (keeping the slash), the empty string when no slash occurs. -/
def fromSlash : List Char → List Char
  | [] => []
  | c :: r => if c = '/' then c :: r else fromSlash r

/-- The mask loop of `parseIPv6Pattern`: empty tokens are skipped, each
other token must be a nonzero integer in `[-128, 128]`; a positive token
sets `maskEnd`, a negative one sets `maskStart = 128 + m`. -/
def maskFold : List (List Char) → Int → Int → Res (Int × Int)
  | [], ms, me => .ok (ms, me)
  | t :: rest, ms, me =>
    if t = [] then maskFold rest ms me
    else
      match goAtoi t with
      | none => .err .invalidPattern
      | some m =>
        if m < -128 ∨ 128 < m ∨ m = 0 then .err .invalidPattern
        else if 0 < m then maskFold rest ms m
        else maskFold rest (128 + m) me

/-- Go `parseIPv6Pattern`: parse the address part, fold the mask tokens,
then the type assertion `ip.(IPv6Address)` (a panic when the parsed
address is IPv4). -/
def parseIPv6Pattern (s : List Char) : Res (Option Pattern) :=
  (ParseIp (beforeSlash s)).bind fun ip =>
    (maskFold (splitChar '/' (fromSlash s)) 0 128).bind fun bounds =>
      match ip with
      | .v6 bytes => .ok (some (.v6 ⟨bytes, bounds.2, bounds.1⟩))
      | .v4 _ => .panic

/-- Go `ParsePattern`. -/
def ParsePattern (s : List Char) : Res (Option Pattern) :=
  match dispatch s with
  | some true => parseIPv4Pattern s
  | some false => parseIPv6Pattern s
  | none => .err .invalidIP

/-- Bit `i` of an address (most-significant bit of byte 0 is bit 0). -/
def addrBit (bytes : List Nat) (i : Nat) : Nat :=
  ((bytes.getD (i / 8) 0) >>> (7 - i % 8)) % 2

/-- All bit positions in `[lo, hi)` agree between the two addresses. -/
def bitsEq (a b : List Nat) (lo hi : Nat) : Bool :=
  (List.range (hi - lo)).all fun k => addrBit a (lo + k) == addrBit b (lo + k)

/-- A successful run of the digit accumulator means every character was a digit. -/
theorem digitsValGo_digits (l : List Char) : ∀ (acc n : Nat), digitsValGo acc l = some n →
    ∀ c ∈ l, isDigitC c = true := by
  induction l with
  | nil => intro acc n _ c hc; cases hc
  | cons d r ih =>
    intro acc n h c hc
    rw [digitsValGo] at h
    by_cases hd : isDigitC d = true
    · rw [if_pos hd] at h
      rcases List.mem_cons.mp hc with rfl | hc'
      · exact hd
      · exact ih _ _ h c hc'
    · rw [if_neg hd] at h; cases h

/-- A string with a decimal value consists of digits only. -/
theorem digitsVal_digits (l : List Char) (n : Nat) (h : digitsVal l = some n) :
    ∀ c ∈ l, isDigitC c = true := by
  cases l with
  | nil => cases h
  | cons c r => exact digitsValGo_digits (c :: r) 0 n h

/-- A decimal digit is not the plus sign. -/
theorem isDigitC_ne_plus {c : Char} (h : isDigitC c = true) : ¬ c = '+' :=
  fun he => absurd (he ▸ h) (by decide)

/-- A decimal digit is not the minus sign. -/
theorem isDigitC_ne_minus {c : Char} (h : isDigitC c = true) : ¬ c = '-' :=
  fun he => absurd (he ▸ h) (by decide)

/-- On an unsigned digit string, `goAtoi` returns its decimal value. -/
theorem goAtoi_digits (c : Char) (r : List Char) (n : Nat)
    (h : digitsVal (c :: r) = some n) : goAtoi (c :: r) = some (n : Int) := by
  have hc : isDigitC c = true := digitsVal_digits _ _ h c (List.mem_cons_self c r)
  rw [goAtoi, if_neg (isDigitC_ne_plus hc), if_neg (isDigitC_ne_minus hc), h]
  rfl

/-- A valid positive mask token sets `maskEnd` and leaves `maskStart` alone. -/
theorem maskFold_cons_pos (t : List Char) (rest : List (List Char)) (ms me m : Int)
    (hA : goAtoi t = some m) (h1 : 0 < m) (h2 : m ≤ 128) :
    maskFold (t :: rest) ms me = maskFold rest ms m := by
  have ht : ¬ t = [] := by intro h; rw [h] at hA; cases hA
  rw [maskFold, if_neg ht, hA]
  show (if m < -128 ∨ 128 < m ∨ m = 0 then Res.err GoErr.invalidPattern
      else if 0 < m then maskFold rest ms m else maskFold rest (128 + m) me) = maskFold rest ms m
  rw [if_neg (show ¬(m < -128 ∨ 128 < m ∨ m = 0) by omega), if_pos h1]

/-- A valid negative mask token `m` sets `maskStart = 128 + m` and leaves
`maskEnd` alone. -/
theorem maskFold_cons_neg (t : List Char) (rest : List (List Char)) (ms me m : Int)
    (hA : goAtoi t = some m) (h1 : m < 0) (h2 : -128 ≤ m) :
    maskFold (t :: rest) ms me = maskFold rest (128 + m) me := by
  have ht : ¬ t = [] := by intro h; rw [h] at hA; cases hA
  rw [maskFold, if_neg ht, hA]
  show (if m < -128 ∨ 128 < m ∨ m = 0 then Res.err GoErr.invalidPattern
      else if 0 < m then maskFold rest ms m else maskFold rest (128 + m) me) = maskFold rest (128 + m) me
  rw [if_neg (show ¬(m < -128 ∨ 128 < m ∨ m = 0) by omega),
    if_neg (show ¬(0 < m) by omega)]

/-- The mask loop keeps both bounds inside `[0, 128]` whenever it starts
inside `[0, 128]`: positive tokens are at most 128 and negative tokens at
least -128, so each update stays in range. -/
theorem maskFold_bounds (toks : List (List Char)) : ∀ (ms me ms' me' : Int),
    0 ≤ ms → ms ≤ 128 → 0 ≤ me → me ≤ 128 →
    maskFold toks ms me = .ok (ms', me') →
    0 ≤ ms' ∧ ms' ≤ 128 ∧ 0 ≤ me' ∧ me' ≤ 128 := by
  induction toks with
  | nil =>
    intro ms me ms' me' h0 h1 h2 h3 h
    rw [maskFold] at h
    injection h with h'
    injection h' with e1 e2
    subst e1; subst e2
    exact ⟨h0, h1, h2, h3⟩
  | cons t rest ih =>
    intro ms me ms' me' h0 h1 h2 h3 h
    rw [maskFold] at h
    split at h
    · exact ih _ _ _ _ h0 h1 h2 h3 h
    · split at h
      · cases h
      · rename_i m heq
        split at h
        · cases h
        · rename_i hguard
          split at h
          · exact ih _ _ _ _ h0 h1 (by omega) (by omega) h
          · rename_i hpos
            exact ih _ _ _ _ (by omega) (by omega) h2 h3 h

/-- Without a slash in the input the mask part is empty. -/
theorem fromSlash_eq_nil (s : List Char) (h : ∀ c ∈ s, c ≠ '/') : fromSlash s = [] := by
  induction s with
  | nil => rfl
  | cons c r ih =>
    rw [fromSlash, if_neg (h c (List.mem_cons_self c r))]
    exact ih fun d hd => h d (List.mem_cons_of_mem c hd)

/-- Without a slash in the input the address part is the whole input. -/
theorem beforeSlash_eq_self (s : List Char) (h : ∀ c ∈ s, c ≠ '/') : beforeSlash s = s := by
  induction s with
  | nil => rfl
  | cons c r ih =>
    rw [beforeSlash, if_neg (h c (List.mem_cons_self c r))]
    rw [ih fun d hd => h d (List.mem_cons_of_mem c hd)]

/-- Claim C5, amended: every `IPv6Pattern` produced by a successful
`parseIPv6Pattern` call has `maskStart` and `maskEnd` each in `[0, 128]`.
The claim's stronger invariant `maskStart <= maskEnd` does not hold (see
the counterexample `c5_counterexample`): nothing in the code compares the
two bounds, so a pattern combining a positive and a negative mask token
can have `maskStart > maskEnd`. -/
theorem c5_pattern_bounds (s : List Char) (p : IPv6Pattern)
    (h : parseIPv6Pattern s = .ok (some (.v6 p))) :
    0 ≤ p.MaskStart ∧ p.MaskStart ≤ 128 ∧ 0 ≤ p.MaskEnd ∧ p.MaskEnd ≤ 128 := by
  unfold parseIPv6Pattern at h
  cases hip : ParseIp (beforeSlash s) with
  | err e => rw [hip] at h; cases h
  | panic => rw [hip] at h; cases h
  | ok ip =>
    rw [hip] at h
    simp only [Res.bind] at h
    cases hmf : maskFold (splitChar '/' (fromSlash s)) 0 128 with
    | err e => rw [hmf] at h; cases h
    | panic => rw [hmf] at h; cases h
    | ok bounds =>
      rw [hmf] at h
      simp only [Res.bind] at h
      cases ip with
      | v4 b => cases h
      | v6 bytes =>
        simp only [Res.ok.injEq, Option.some.injEq, Pattern.v6.injEq] at h
        obtain ⟨hb0, hb1, hb2, hb3⟩ :=
          maskFold_bounds _ 0 128 bounds.1 bounds.2 (by omega) (by omega) (by omega) (by omega)
            (by rw [hmf])
        rw [← h]
        exact ⟨hb0, hb1, hb2, hb3⟩

/-- A pattern string without any slash compiles with the default bounds
`maskStart = 0`, `maskEnd = 128`. -/
theorem parseIPv6Pattern_no_slash (s : List Char) (p : IPv6Pattern)
    (hs : ∀ c ∈ s, c ≠ '/') (h : parseIPv6Pattern s = .ok (some (.v6 p))) :
    p.MaskStart = 0 ∧ p.MaskEnd = 128 := by
  unfold parseIPv6Pattern at h
  rw [fromSlash_eq_nil s hs] at h
  cases hip : ParseIp (beforeSlash s) with
  | err e => rw [hip] at h; cases h
  | panic => rw [hip] at h; cases h
  | ok ip =>
    rw [hip] at h
    simp only [Res.bind] at h
    rw [show maskFold (splitChar '/' []) 0 128 = .ok (0, 128) from rfl] at h
    simp only [Res.bind] at h
    cases ip with
    | v4 b => cases h
    | v6 bytes =>
      simp only [Res.ok.injEq, Option.some.injEq, Pattern.v6.injEq] at h
      rw [← h]
      exact ⟨rfl, rfl⟩

/-- Every 1-3 character unsigned digit string with value at most 255 is
accepted as an IPv4 octet with that value (leading zeros included). -/
theorem parseOctet_digits (b : List Char) (n : Nat)
    (hlen : b.length ≤ 3) (hd : digitsVal b = some n) (hn : n ≤ 255) :
    parseOctet b = .ok n := by
  cases b with
  | nil => cases hd
  | cons c r =>
    rw [parseOctet, if_neg (by simp : ¬(c :: r = [])),
      if_neg (show ¬((c :: r).length > 3) by omega),
      goAtoi_digits c r n hd]
    show (if (n : Int) < 0 ∨ 255 < (n : Int) then Res.err GoErr.invalidIP
        else Res.ok (n : Int).toNat) = Res.ok n
    rw [if_neg (show ¬((n : Int) < 0 ∨ 255 < (n : Int)) by omega)]
    simp

/-- Every accepted IPv4 octet string is digits only, or a `'+'` or `'-'`
sign followed by digits only (the sign being accepted by `strconv.Atoi`). -/
theorem parseOctet_shape (b : List Char) (n : Nat) (h : parseOctet b = .ok n) :
    (∀ c ∈ b, isDigitC c = true) ∨
      ∃ t, (b = '+' :: t ∨ b = '-' :: t) ∧ ∀ c ∈ t, isDigitC c = true := by
  rw [parseOctet] at h
  split at h
  · cases h
  · split at h
    · cases h
    · cases hA : goAtoi b with
      | none => rw [hA] at h; cases h
      | some m =>
        cases b with
        | nil => cases hA
        | cons c r =>
          rw [goAtoi] at hA
          by_cases hp : c = '+'
          · subst hp
            rw [if_pos rfl] at hA
            cases hd : digitsVal r with
            | none => rw [hd] at hA; cases hA
            | some k => exact Or.inr ⟨r, Or.inl rfl, digitsVal_digits r k hd⟩
          · rw [if_neg hp] at hA
            by_cases hm : c = '-'
            · subst hm
              rw [if_pos rfl] at hA
              cases hd : digitsVal r with
              | none => rw [hd] at hA; cases hA
              | some k => exact Or.inr ⟨r, Or.inr rfl, digitsVal_digits r k hd⟩
            · rw [if_neg hm] at hA
              cases hd : digitsVal (c :: r) with
              | none => rw [hd] at hA; cases hA
              | some k => exact Or.inl (digitsVal_digits _ k hd)

/-- Claim C1 (refuted, code bug): `Match` is claimed to be a total boolean
function on validly compiled patterns and validly parsed addresses, with no
panic.  In the code, `IPv6Pattern.Match` uses the bit offsets
`MaskStart`/`MaskEnd` (up to 128) directly as indices into the 16-byte
arrays.  The pattern `"::"` compiles with `MaskEnd = 128` and the address
`"::"` parses, yet matching the two panics with an index out of range at
byte 16. -/
theorem c1_match_not_total :
    ParsePattern (chars "::") = .ok (some (.v6 ⟨List.replicate 16 0, 128, 0⟩))
    ∧ ParseIp (chars "::") = .ok (.v6 (List.replicate 16 0))
    ∧ Pattern.Match (.v6 ⟨List.replicate 16 0, 128, 0⟩) (.v6 (List.replicate 16 0)) = .panic :=
  ⟨by decide, by decide, by decide⟩

/-- Claim C2 (refuted, code bug): `Match` is claimed to return true iff
every bit in `[maskStart, maskEnd)` agrees, bit-precise for mid-byte
bounds.  The code compares whole bytes at byte indices
`[maskStart, maskEnd)` instead: the candidate `"fe81::"` agrees with the
pattern `"fe80::/10"` on bits 0..9 (`bitsEq .. 0 10 = true`), so the claim
requires a match, but the code compares bytes 0..9 and returns false at
byte 1 (`0x81` vs `0x80`). -/
theorem c2_match_bytewise_not_bitwise :
    ParsePattern (chars "fe80::/10") =
      .ok (some (.v6 ⟨[254, 128, 0, 0, 0, 0, 0, 0, 0, 0, 0, 0, 0, 0, 0, 0], 10, 0⟩))
    ∧ ParseIp (chars "fe81::") = .ok (.v6 [254, 129, 0, 0, 0, 0, 0, 0, 0, 0, 0, 0, 0, 0, 0, 0])
    ∧ bitsEq [254, 129, 0, 0, 0, 0, 0, 0, 0, 0, 0, 0, 0, 0, 0, 0]
        [254, 128, 0, 0, 0, 0, 0, 0, 0, 0, 0, 0, 0, 0, 0, 0] 0 10 = true
    ∧ Pattern.Match (.v6 ⟨[254, 128, 0, 0, 0, 0, 0, 0, 0, 0, 0, 0, 0, 0, 0, 0], 10, 0⟩)
        (.v6 [254, 129, 0, 0, 0, 0, 0, 0, 0, 0, 0, 0, 0, 0, 0, 0]) = .ok false :=
  ⟨by decide, by decide, by decide, by decide⟩

/-- Claim C3 (refuted, code bug): an out-of-range IPv4 mask such as
`"192.168.1.0" with mask token -33` is claimed to fail with `InvalidPattern`, and the
repository's own test expects exactly that error.  But `parseIPv4Pattern`
is a stub whose body is `return nil, nil`, so compilation succeeds and
yields no pattern value at all. -/
theorem c3_ipv4_mask_not_validated :
    ParsePattern (chars "192.168.1.0/-33") = .ok none := by decide

/-- Claim C4 (refuted, code bug): `parseAddress` is claimed to be total,
returning `InvalidAddress` for every malformed input such as
`"1:2:3:4:5:6:7:8:9::"`.  On that input `extendIPv6` strips the trailing
`"::"`, computes `addedBlockCount = 8 - 9 = -1` and calls `strings.Repeat`
with a negative count, which panics in Go. -/
theorem c4_parse_panics :
    ParseIp (chars "1:2:3:4:5:6:7:8:9::") = .panic := by decide

/-- Counterexample to claim C5: compiling `"::1"` with mask tokens 1 and -1 succeeds and
produces `MaskEnd = 1`, `MaskStart = 127`, violating the claimed invariant
`maskStart <= maskEnd`. -/
theorem c5_counterexample :
    parseIPv6Pattern (chars "::1/1/-1") =
      .ok (some (.v6 ⟨[0, 0, 0, 0, 0, 0, 0, 0, 0, 0, 0, 0, 0, 0, 0, 1], 1, 127⟩))
    ∧ ¬ ((127 : Int) ≤ 1) :=
  ⟨by decide, by decide⟩

/-- Witness for `c5_pattern_bounds` at the concrete input `"::1"` with mask tokens 1 and -1. -/
theorem c5_witness :
    parseIPv6Pattern (chars "::1/1/-1") =
      .ok (some (.v6 ⟨[0, 0, 0, 0, 0, 0, 0, 0, 0, 0, 0, 0, 0, 0, 0, 1], 1, 127⟩))
    ∧ (0 ≤ (127 : Int) ∧ (127 : Int) ≤ 128 ∧ 0 ≤ (1 : Int) ∧ (1 : Int) ≤ 128) :=
  ⟨by decide, c5_pattern_bounds (chars "::1/1/-1")
    ⟨[0, 0, 0, 0, 0, 0, 0, 0, 0, 0, 0, 0, 0, 0, 0, 1], 1, 127⟩ (by decide)⟩

/-- Claim C6 (refuted, code bug): an empty group left after expansion, as
in `"1:2:3:4:5:6:7:"`, is claimed to fail with `InvalidAddress`.  In the
code the padding loop of `extendIPv6` turns the empty group into `"0000"`
before `parseIPv6`'s (dead) empty-group check runs, so the input is
accepted as `1:2:3:4:5:6:7:0`.  The second half of the claim does hold:
a group longer than 4 digits is rejected. -/
theorem c6_empty_group_zero_filled :
    ParseIp (chars "1:2:3:4:5:6:7:") =
      .ok (.v6 [0, 1, 0, 2, 0, 3, 0, 4, 0, 5, 0, 6, 0, 7, 0, 0])
    ∧ ParseIp (chars "1:2:3:4:5:6:7:12345") = .err .invalidIP :=
  ⟨by decide, by decide⟩

/-- Claim C7 (confirmed): IPv6 pattern compilation yields the specified
bounds: the three quoted examples produce exactly the claimed
`maskStart`/`maskEnd`; a pattern without mask suffix gets the defaults
`maskStart = 0`, `maskEnd = 128`; and for one positive and one negative
token the result is the same in either order: `maskEnd` = the positive
token, `maskStart` = 128 + the negative token. -/
theorem c7_ipv6_mask_bounds :
    (parseIPv6Pattern (chars "fe80::/10") =
        .ok (some (.v6 ⟨[254, 128, 0, 0, 0, 0, 0, 0, 0, 0, 0, 0, 0, 0, 0, 0], 10, 0⟩))
      ∧ parseIPv6Pattern (chars "::100/-9") =
        .ok (some (.v6 ⟨[0, 0, 0, 0, 0, 0, 0, 0, 0, 0, 0, 0, 0, 0, 1, 0], 128, 119⟩))
      ∧ parseIPv6Pattern (chars "::abcd:1ff:fe00:0/-64/104") =
        .ok (some (.v6 ⟨[0, 0, 0, 0, 0, 0, 0, 0, 171, 205, 1, 255, 254, 0, 0, 0], 104, 64⟩)))
    ∧ (∀ (s : List Char) (p : IPv6Pattern), (∀ c ∈ s, c ≠ '/') →
        parseIPv6Pattern s = .ok (some (.v6 p)) → p.MaskStart = 0 ∧ p.MaskEnd = 128)
    ∧ (∀ (t u : List Char) (m n : Int), goAtoi t = some m → 0 < m → m ≤ 128 →
        goAtoi u = some n → n < 0 → -128 ≤ n →
        maskFold [t, u] 0 128 = .ok (128 + n, m) ∧ maskFold [u, t] 0 128 = .ok (128 + n, m)) := by
  refine ⟨⟨by decide, by decide, by decide⟩, parseIPv6Pattern_no_slash, ?_⟩
  intro t u m n hAt hmp hml hAu hnn hnl
  constructor
  · rw [maskFold_cons_pos t [u] 0 128 m hAt hmp hml,
      maskFold_cons_neg u [] 0 m n hAu hnn hnl]
    rfl
  · rw [maskFold_cons_neg u [t] 0 128 n hAu hnn hnl,
      maskFold_cons_pos t [] (128 + n) 128 m hAt hmp hml]
    rfl

/-- Witness for `c7_ipv6_mask_bounds` at the tokens `"104"` and `"-64"`. -/
theorem c7_witness :
    goAtoi (chars "104") = some 104 ∧ goAtoi (chars "-64") = some (-64)
    ∧ maskFold [chars "104", chars "-64"] 0 128 = .ok (64, 104) := by
  refine ⟨by decide, by decide, ?_⟩
  rw [show (64 : Int) = 128 + -64 by norm_num]
  exact (c7_ipv6_mask_bounds.2.2 (chars "104") (chars "-64") 104 (-64)
    (by decide) (by decide) (by decide) (by decide) (by decide) (by decide)).1

/-- Counterexample to claim C8: the claim says any octet containing a
non-digit character, including a sign as in `"+1.0.0.1"`, fails with
`InvalidAddress`.  `strconv.Atoi` accepts a leading sign, so the code
accepts `"+1.0.0.1"` as `1.0.0.1`. -/
theorem c8_counterexample :
    ParseIp (chars "+1.0.0.1") = .ok (.v4 [1, 0, 0, 1]) := by decide

/-- Claim C8, amended: an IPv4 octet token is 1-3 characters parsed as a
signed decimal integer in `[0, 255]`: every unsigned digit string of 1-3
characters with value at most 255 is accepted with that value (leading
zeros read as plain decimal), and every accepted token is digits only or a
single leading `'+'`/`'-'` sign followed by digits; a token containing any
other non-digit character fails. -/
theorem c8_octets_atoi :
    (∀ (b : List Char) (n : Nat), b.length ≤ 3 → digitsVal b = some n → n ≤ 255 →
        parseOctet b = .ok n)
    ∧ (∀ (b : List Char) (n : Nat), parseOctet b = .ok n →
        (∀ c ∈ b, isDigitC c = true) ∨
          ∃ t, (b = '+' :: t ∨ b = '-' :: t) ∧ ∀ c ∈ t, isDigitC c = true)
    ∧ ParseIp (chars "192.007.0.1") = .ok (.v4 [192, 7, 0, 1]) :=
  ⟨parseOctet_digits, parseOctet_shape, by decide⟩

/-- Witness for `c8_octets_atoi` at the concrete octet `"042"`. -/
theorem c8_witness :
    digitsVal (chars "042") = some 42 ∧ parseOctet (chars "042") = .ok 42 :=
  ⟨by decide, c8_octets_atoi.1 (chars "042") 42 (by decide) (by decide) (by decide)⟩

/-- Claim C9 (confirmed): `ParseIp(":::")` succeeds and returns the
all-zero 16-byte IPv6 address.  The non-overlapping count of `"::"` in
`":::"` is 1, so the double-compression check passes, and the prefix and
suffix expansion branches both run, producing eight zero groups. -/
theorem c9_triple_colon_all_zero :
    countSS (chars ":::") = 1
    ∧ ParseIp (chars ":::") = .ok (.v6 (List.replicate 16 0)) :=
  ⟨by decide, by decide⟩

/-- Claim C10 (confirmed): more than two mask tokens are accepted
(`"::1/1/2/3"` compiles, with the last positive token 3 as `maskEnd`),
every token is still validated (`"::1/1/2/x"` fails with
`InvalidPattern`), and among two valid tokens of the same sign the second
silently overwrites the first. -/
theorem c10_extra_mask_tokens :
    parseIPv6Pattern (chars "::1/1/2/3") =
      .ok (some (.v6 ⟨[0, 0, 0, 0, 0, 0, 0, 0, 0, 0, 0, 0, 0, 0, 0, 1], 3, 0⟩))
    ∧ parseIPv6Pattern (chars "::1/1/2/x") = .err .invalidPattern
    ∧ (∀ (t u : List Char) (p q : Int), goAtoi t = some p → 0 < p → p ≤ 128 →
        goAtoi u = some q → 0 < q → q ≤ 128 →
        maskFold [t, u] 0 128 = .ok (0, q)) := by
  refine ⟨by decide, by decide, ?_⟩
  intro t u p q hAt h1 h2 hAu h3 h4
  rw [maskFold_cons_pos t [u] 0 128 p hAt h1 h2,
    maskFold_cons_pos u [] 0 p q hAu h3 h4]
  rfl

/-- Witness for `c10_extra_mask_tokens` at the tokens `"1"` and `"2"`. -/
theorem c10_witness :
    goAtoi (chars "1") = some 1 ∧ goAtoi (chars "2") = some 2
    ∧ maskFold [chars "1", chars "2"] 0 128 = .ok (0, 2) :=
  ⟨by decide, by decide, c10_extra_mask_tokens.2.2 (chars "1") (chars "2") 1 2
    (by decide) (by decide) (by decide) (by decide) (by decide) (by decide)⟩
